import Mathlib

/-!
Verification of the AutoOMR client application.

Shallow embedding of the data model and the operations of the AutoOMR
dashboard: the mock result generator, the review-table state machine
(search, sort, status filter, pagination, batch approve and delete),
the CSV export filter, the simulated per-file processing pipeline, the
persistence round trip through JSON, and the AI-insights service call.

Modelling conventions:
* machine numbers that the code treats as reals (confidence values) are
  rationals; scores are naturals; timestamps are integers (milliseconds
  since the Unix epoch, on a UTC clock, so day arithmetic is whole days);
* calls to the random generator are passed in as explicit arguments
  (a boolean draw per question, a rational confidence draw, and so on);
* the outcome of the one external network call is passed in as an
  Except value;
* JS strings are compared by the order on Lean strings, and the
  lower-casing in the search filter is ASCII lower-casing, which agrees
  with toLowerCase on the ASCII identifiers the generator produces.
-/

namespace AutoOMR

/-- Status of a graded result; the JS string values are the literals
named by the str function below. -/
inductive Status
  | complete
  | needsReview
deriving DecidableEq, Repr

/-- JS string value of a status, as stored and as compared by the
sort comparator. -/
def Status.str : Status → String
  | .complete => "Complete"
  | .needsReview => "Needs Review"

/-- Exam set label of a result. -/
inductive ExamSet
  | A
  | B
  | C
  | D
deriving DecidableEq, Repr

/-- JS string value of an exam set. -/
def ExamSet.str : ExamSet → String
  | .A => "A"
  | .B => "B"
  | .C => "C"
  | .D => "D"

/-- Scores of the five sections, from the SectionScores interface. -/
structure SectionScores where
  dataAnalytics : Nat
  aiMl : Nat
  dataScience : Nat
  generativeAi : Nat
  statistics : Nat
deriving DecidableEq, Repr

/-- Field of a SectionScores record selected by the 0-based section
index (the order of the SECTIONS array). -/
def sectionScoreAt (sc : SectionScores) : Nat → Nat
  | 0 => sc.dataAnalytics
  | 1 => sc.aiMl
  | 2 => sc.dataScience
  | 3 => sc.generativeAi
  | _ => sc.statistics

/-- One entry of the answers array, from the AnswerDetail interface. -/
structure AnswerDetail where
  question : Nat
  studentAnswer : String
  correctAnswer : String
  isCorrect : Bool
deriving DecidableEq, Repr

/-- Default answer entry used with getD at an in-bounds index. -/
def dummyAnswer : AnswerDetail :=
  { question := 0, studentAnswer := "", correctAnswer := "", isCorrect := false }

/-- StudentResult record, parameterized by the type held in the
processingDate field: an integer timestamp for a Date object in memory,
or a dynamic date-or-string value when studying the JSON round trip. -/
structure StudentResultG (D : Type) where
  id : String
  studentId : String
  examSet : ExamSet
  sectionScores : SectionScores
  totalScore : Nat
  confidence : Rat
  status : Status
  answers : List AnswerDetail
  originalImage : String
  processingDate : D
deriving DecidableEq, Repr

/-- In-memory StudentResult: processingDate is a Date object, modelled
as milliseconds since the Unix epoch. -/
abbrev StudentResult := StudentResultG Int

/-- Milliseconds in one day. -/
def msPerDay : Int := 86400000

/-- Default result used with getD when reading a list at an in-bounds
index. -/
def dummyResult : StudentResult :=
  { id := ""
    studentId := ""
    examSet := .A
    sectionScores := ⟨0, 0, 0, 0, 0⟩
    totalScore := 0
    confidence := 0
    status := .complete
    answers := []
    originalImage := ""
    processingDate := 0 }

/-! Mock data generator. -/

/-- MOCK_STUDENT_IDS constant. -/
def MOCK_STUDENT_IDS : List String :=
  ["ST001", "ST002", "ST003", "ST004", "ST005",
   "ST006", "ST007", "ST008", "ST009", "ST010"]

/-- CORRECT_ANSWERS constant: fifty answers cycling A, B, C, D
(String.fromCharCode(65 + (i % 4))). -/
def CORRECT_ANSWERS : List String :=
  (List.range 50).map (fun i => String.mk [Char.ofNat (65 + i % 4)])

/-- One entry pushed onto the answers array for the 0-based question
index questionNum, where draw is the isCorrect coin of that question
(the Math.random() > 0.3 draw). -/
def mkAnswer (draw : Bool) (questionNum : Nat) : AnswerDetail :=
  { question := questionNum + 1
    studentAnswer :=
      if draw then CORRECT_ANSWERS.getD questionNum ""
      else String.mk [Char.ofNat (65 + (questionNum + 1) % 4)]
    correctAnswer := CORRECT_ANSWERS.getD questionNum ""
    isCorrect := draw }

/-- Answers pushed for the section with 0-based index sIdx: its
questions are the indices sIdx * 10 + i for i < 10. -/
def sectionAnswers (draws : Nat → Bool) (sIdx : Nat) : List AnswerDetail :=
  (List.range 10).map (fun i => mkAnswer (draws (sIdx * 10 + i)) (sIdx * 10 + i))

/-- Score of the section with index sIdx: the loop adds 2 for every
correct draw among its 10 questions. -/
def sectionScoreOf (draws : Nat → Bool) (sIdx : Nat) : Nat :=
  2 * (List.range 10).countP (fun i => draws (sIdx * 10 + i))

/-- Answers accumulated over the five sections in order. -/
def allAnswers (draws : Nat → Bool) : List AnswerDetail :=
  (List.range 5).flatMap (sectionAnswers draws)

/-- Section-score record accumulated by the forEach loop. -/
def mockSectionScores (draws : Nat → Bool) : SectionScores :=
  { dataAnalytics := sectionScoreOf draws 0
    aiMl := sectionScoreOf draws 1
    dataScience := sectionScoreOf draws 2
    generativeAi := sectionScoreOf draws 3
    statistics := sectionScoreOf draws 4 }

/-- Total score accumulated by the forEach loop. -/
def mockTotalScore (draws : Nat → Bool) : Nat :=
  sectionScoreOf draws 0 + sectionScoreOf draws 1 + sectionScoreOf draws 2 +
    sectionScoreOf draws 3 + sectionScoreOf draws 4

/-- Shallow embedding of generateMockResult. The random draws are
explicit arguments: draws q is the per-question isCorrect coin
(Math.random() > 0.3), sidDraw stands for Math.floor(Math.random() * 900),
confDraw for the Math.random() confidence draw (a rational in [0, 1)),
daysAgo for Math.floor(Math.random() * 30), and nowMs is the clock at
generation time. setDate subtraction of whole days is day arithmetic on
the UTC clock. -/
def generateMockResult (fileId : String) (index : Nat) (draws : Nat → Bool)
    (sidDraw : Nat) (confDraw : Rat) (daysAgo : Nat) (nowMs : Int) : StudentResult :=
  let studentId :=
    MOCK_STUDENT_IDS.getD (index % MOCK_STUDENT_IDS.length) "" ++ "-" ++
      toString (sidDraw % 900 + 100)
  let confidence := confDraw * (2 / 10) + 8 / 10
  let needsReview := confidence < 9 / 10
  { id := fileId
    studentId := studentId
    examSet := [ExamSet.A, .B, .C, .D].getD (index % 4) .A
    sectionScores := mockSectionScores draws
    totalScore := mockTotalScore draws
    confidence := confidence
    status := if needsReview then .needsReview else .complete
    answers := allAnswers draws
    originalImage := "https://picsum.photos/seed/" ++ studentId ++ "/800/1100"
    processingDate := nowMs - (daysAgo : Int) * msPerDay }

/-! Review-table state machine (ResultsView). -/

/-- Value of the status filter buttons (table filter and export filter
both range over these three values). -/
inductive StatusFilter
  | all
  | complete
  | needsReview
deriving DecidableEq, Repr

/-- Filter value whose JS string equals the JS string of the given
status; used to model the r.status === statusFilter comparison. -/
def StatusFilter.ofStatus : Status → StatusFilter
  | .complete => .complete
  | .needsReview => .needsReview

/-- ASCII lower-casing of the characters of a string, modelling
toLowerCase on the ASCII data this application handles. -/
def lowerStr (s : String) : List Char :=
  s.data.map Char.toLower

/-- JS String.prototype.includes: the needle occurs as a contiguous
run inside the haystack. -/
def strIncludes (haystack needle : List Char) : Bool :=
  match haystack with
  | [] => needle.isEmpty
  | c :: t => needle.isPrefixOf (c :: t) || strIncludes t needle

/-- Search predicate of filteredResults: the lower-cased studentId
contains the lower-cased search term. -/
def matchesSearch (searchTerm : String) (r : StudentResult) : Bool :=
  strIncludes (lowerStr r.studentId) (lowerStr searchTerm)

/-- Status predicate of filteredResults: the filter is All, or the
status of the row equals the filter. -/
def matchesStatusFilter (statusFilter : StatusFilter) (r : StudentResult) : Bool :=
  statusFilter == .all || StatusFilter.ofStatus r.status == statusFilter

/-- filteredResults memo: the search filter followed by the status
filter. -/
def filteredResults (results : List StudentResult) (searchTerm : String)
    (statusFilter : StatusFilter) : List StudentResult :=
  (results.filter (matchesSearch searchTerm)).filter (matchesStatusFilter statusFilter)

/-- Sortable columns offered by the table header. -/
inductive SortKey
  | studentId
  | totalScore
  | status
  | processingDate
  | confidence
  | examSet
deriving DecidableEq, Repr

/-- Sort direction. -/
inductive SortDir
  | asc
  | desc
deriving DecidableEq, Repr

/-- Sort configuration held in the sortConfig state. -/
structure SortConfig where
  key : SortKey
  direction : SortDir
deriving DecidableEq, Repr

/-- JS comparison aValue < bValue of the column values of two rows:
strings compare lexicographically, numbers numerically, and Date
objects by their millisecond value. -/
def keyLtB (k : SortKey) (a b : StudentResult) : Bool :=
  match k with
  | .studentId => decide (a.studentId < b.studentId)
  | .totalScore => decide (a.totalScore < b.totalScore)
  | .status => decide (a.status.str < b.status.str)
  | .processingDate => decide (a.processingDate < b.processingDate)
  | .confidence => decide (a.confidence < b.confidence)
  | .examSet => decide (a.examSet.str < b.examSet.str)

/-- Comparator passed to sort: -1 when aValue < bValue (1 when the
direction is descending), the mirror for aValue > bValue, else 0. -/
def jsCompare (cfg : SortConfig) (a b : StudentResult) : Int :=
  if keyLtB cfg.key a b then (if cfg.direction == .asc then -1 else 1)
  else if keyLtB cfg.key b a then (if cfg.direction == .asc then 1 else -1)
  else 0

/-- Non-positive comparator outcome, the order used by the (stable)
JS sort. -/
def jsLe (cfg : SortConfig) (a b : StudentResult) : Bool :=
  decide (jsCompare cfg a b ≤ 0)

/-- sortedResults memo: a copy of filteredResults, sorted by the
comparator when a sort configuration is present (Array.prototype.sort
is stable, modelled by a stable merge sort). -/
def sortedResults (l : List StudentResult) (sortConfig : Option SortConfig) :
    List StudentResult :=
  match sortConfig with
  | none => l
  | some cfg => l.mergeSort (jsLe cfg)

/-- RESULTS_PER_PAGE constant. -/
def RESULTS_PER_PAGE : Nat := 10

/-- paginatedResults memo: slice of the sorted list starting at
(currentPage - 1) * RESULTS_PER_PAGE, of length RESULTS_PER_PAGE.
The page number is at least 1 in every reachable table state. -/
def paginatedResults (l : List StudentResult) (currentPage : Nat) :
    List StudentResult :=
  (l.drop ((currentPage - 1) * RESULTS_PER_PAGE)).take RESULTS_PER_PAGE

/-- totalPages value: Math.ceil of the sorted length over
RESULTS_PER_PAGE, as ceiling division on naturals. -/
def totalPages (l : List StudentResult) : Nat :=
  (l.length + RESULTS_PER_PAGE - 1) / RESULTS_PER_PAGE

/-- Rows rendered by the table body: the paginated slice of the sorted
copy of the filtered results. -/
def displayedRows (results : List StudentResult) (searchTerm : String)
    (statusFilter : StatusFilter) (sortConfig : Option SortConfig)
    (currentPage : Nat) : List StudentResult :=
  paginatedResults (sortedResults (filteredResults results searchTerm statusFilter) sortConfig)
    currentPage

/-- requestSort handler: ascending by default, descending when the
same column is already sorted ascending. -/
def requestSort (sortConfig : Option SortConfig) (key : SortKey) : SortConfig :=
  let direction : SortDir :=
    match sortConfig with
    | some cfg => if cfg.key == key && cfg.direction == .asc then .desc else .asc
    | none => .asc
  { key := key, direction := direction }

/-! CSV export (exportToCSV). -/

/-- Midnight normalization setHours(0, 0, 0, 0) on the UTC model
clock: the timestamp of the start of the day containing ms. -/
def normalizeToMidnight (ms : Int) : Int :=
  Int.fdiv ms msPerDay * msPerDay

/-- Row predicate of the dataToExport filter inside exportToCSV.
exportStartDate and exportEndDate are the parsed timestamps of the two
date inputs; none models the empty string, which the code treats as
falsy and skips. -/
def exportRowKept (exportStatusFilter : StatusFilter)
    (exportStartDate exportEndDate : Option Int) (r : StudentResult) : Bool :=
  if exportStatusFilter != .all && StatusFilter.ofStatus r.status != exportStatusFilter then
    false
  else
    let resultDate := normalizeToMidnight r.processingDate
    if (match exportStartDate with
        | some startDate => decide (resultDate < startDate)
        | none => false) then false
    else if (match exportEndDate with
        | some endDate => decide (endDate < resultDate)
        | none => false) then false
    else true

/-- Rows included in the exported CSV: exportToCSV filters the full
results list (not the table-filtered list) by the export filters. -/
def dataToExport (results : List StudentResult) (exportStatusFilter : StatusFilter)
    (exportStartDate exportEndDate : Option Int) : List StudentResult :=
  results.filter (exportRowKept exportStatusFilter exportStartDate exportEndDate)

/-! App-level handlers. -/

/-- handleApproveResult: map that rewrites the one matching row to
status Complete with confidence 1.0. -/
def handleApproveResult (resultId : String) (l : List StudentResult) :
    List StudentResult :=
  l.map (fun r => if r.id == resultId then
    { r with status := .complete, confidence := 1 } else r)

/-- handleApproveResults: map that rewrites every row whose id is in
the set to status Complete with confidence 1.0. -/
def handleApproveResults (resultIds : List String) (l : List StudentResult) :
    List StudentResult :=
  l.map (fun r => if resultIds.contains r.id then
    { r with status := .complete, confidence := 1 } else r)

/-- handleDeleteResults: keep the rows whose id is not in the set. -/
def handleDeleteResults (resultIds : List String) (l : List StudentResult) :
    List StudentResult :=
  l.filter (fun r => !(resultIds.contains r.id))

/-- Slice of App state touched by handleProcessingComplete. -/
structure AppState where
  studentResults : List StudentResult
  totalProcessed : Nat
deriving DecidableEq, Repr

/-- handleProcessingComplete: append the new results and add their
count to the processed counter. -/
def handleProcessingComplete (st : AppState) (results : List StudentResult) :
    AppState :=
  { studentResults := st.studentResults ++ results
    totalProcessed := st.totalProcessed + results.length }

/-! Simulated processing pipeline (ProcessingDashboard). -/

/-- Shallow embedding of the processFile recursion of the
ProcessingDashboard effect, with the timer delays and progress
animation dropped. isErr i is the Math.random() < 0.1 draw of file i,
which selects the stage list ending in error rather than complete;
gen i stands for generateMockResult(processedFiles[i], i) with the
draws of that file. A file whose final stage is complete pushes exactly
one generated result; a file whose final stage is error pushes none;
then the next file starts. -/
def processFile (totalFiles : Nat) (isErr : Nat → Bool)
    (gen : Nat → StudentResult) (index : Nat) : List StudentResult :=
  if _h : totalFiles ≤ index then []
  else
    (if isErr index then [] else [gen index]) ++
      processFile totalFiles isErr gen (index + 1)
termination_by totalFiles - index
decreasing_by omega

/-- Results handed to onProcessingComplete: the recursion started at
file 0. -/
def pipelineResults (totalFiles : Nat) (isErr : Nat → Bool)
    (gen : Nat → StudentResult) : List StudentResult :=
  processFile totalFiles isErr gen 0

/-! AI-insights service (generateAnalyticsInsights). -/

/-- Truthiness of the API_KEY environment string: undefined and the
empty string are falsy. -/
def apiKeyConfigured : Option String → Bool
  | none => false
  | some s => !s.isEmpty

/-- Shallow embedding of generateAnalyticsInsights. The outcome of the
one ai.models.generateContent call is the call argument: ok with the
response text, or error when the awaited call rejects. The first
component is the returned string; the second records whether the
external API was called. -/
def generateAnalyticsInsights (apiKey : Option String)
    (call : Except String String) : String × Bool :=
  if !apiKeyConfigured apiKey then
    ("API Key not configured. Please set the API_KEY environment variable.", false)
  else
    match call with
    | .ok text => (text, true)
    | .error _ => ("An error occurred while generating AI insights. Please check the console for details.", true)

/-! Persistence: the localStorage save and load effects. -/

/-- Dynamic value held by the processingDate field at run time: a Date
object, or the string that JSON.parse produces for a serialized Date. -/
inductive DateValue
  | dateObj (epochMs : Int)
  | dateStr (s : String)
deriving DecidableEq, Repr

/-- Decimal digits padded to width 2. -/
def pad2 (n : Nat) : String :=
  if n < 10 then "0" ++ toString n else toString n

/-- Decimal digits padded to width 3. -/
def pad3 (n : Nat) : String :=
  if n < 10 then "00" ++ toString n
  else if n < 100 then "0" ++ toString n
  else toString n

/-- Decimal digits padded to width 4. -/
def pad4 (n : Nat) : String :=
  if n < 10 then "000" ++ toString n
  else if n < 100 then "00" ++ toString n
  else if n < 1000 then "0" ++ toString n
  else toString n

/-- Gregorian civil date (year, month, day) of a count of days since
the Unix epoch; the standard civil-from-days conversion. -/
def civilFromDays (day : Int) : Int × Nat × Nat :=
  let z := day + 719468
  let era := Int.fdiv z 146097
  let doe := (z - era * 146097).toNat
  let yoe := (doe - doe / 1460 + doe / 36524 - doe / 146096) / 365
  let doy := doe - (365 * yoe + yoe / 4 - yoe / 100)
  let mp := (5 * doy + 2) / 153
  let d := doy - (153 * mp + 2) / 5 + 1
  let m := if mp < 10 then mp + 3 else mp - 9
  ((yoe : Int) + era * 400 + (if m ≤ 2 then 1 else 0), m, d)

/-- Date.prototype.toISOString for the epoch-millisecond value of a
Date, restricted to the four-digit-year range this application
produces. JSON.stringify serializes a Date through this string. -/
def toISOString (ms : Int) : String :=
  let day := Int.fdiv ms msPerDay
  let msOfDay := (ms - day * msPerDay).toNat
  let c := civilFromDays day
  pad4 c.1.toNat ++ "-" ++ pad2 c.2.1 ++ "-" ++ pad2 c.2.2 ++ "T" ++
    pad2 (msOfDay / 3600000) ++ ":" ++ pad2 (msOfDay % 3600000 / 60000) ++ ":" ++
    pad2 (msOfDay % 60000 / 1000) ++ "." ++ pad3 (msOfDay % 1000) ++ "Z"

/-- JSON string that the processingDate field serializes to: a Date
object serializes to its ISO string, a string stays itself. -/
def jsonOfDate : DateValue → String
  | .dateObj ms => toISOString ms
  | .dateStr s => s

/-- Effect of JSON.stringify followed by JSON.parse on one result: all
fields survive the round trip except the processingDate, which always
comes back as the string form. -/
def stringifyParseResult (r : StudentResultG DateValue) : StudentResultG DateValue :=
  { r with processingDate := .dateStr (jsonOfDate r.processingDate) }

/-- Round trip of the save effect (serialize the whole list under the
studentResults key) and the load effect (parse the stored blob). -/
def saveLoadRoundTrip (l : List (StudentResultG DateValue)) :
    List (StudentResultG DateValue) :=
  l.map stringifyParseResult

/-- Concrete stored result holding a Date object in its processingDate
field, as a freshly generated result does. -/
def sampleDateObjResult : StudentResultG DateValue :=
  { id := "file-1"
    studentId := "ST001-100"
    examSet := .A
    sectionScores := ⟨0, 0, 0, 0, 0⟩
    totalScore := 0
    confidence := 1
    status := .complete
    answers := []
    originalImage := ""
    processingDate := .dateObj 0 }

/-- Concrete stored result whose processingDate is already a string,
as every result is after one reload. -/
def sampleDateStrResult : StudentResultG DateValue :=
  { sampleDateObjResult with processingDate := .dateStr "1970-01-01T00:00:00.000Z" }

/-! Reachable states of the result list. -/

/-- Predicate: the result is a possible output of generateMockResult,
with the confidence draw inside [0, 1) as Math.random() guarantees. -/
def IsGenerated (r : StudentResult) : Prop :=
  ∃ fileId index draws sidDraw confDraw daysAgo nowMs,
    0 ≤ confDraw ∧ confDraw < 1 ∧
      r = generateMockResult fileId index draws sidDraw confDraw daysAgo nowMs

/-- Transitions of the studentResults list performed by the App
component: appending a batch of generated results, the two approve
handlers, and batch delete. -/
inductive AppStep : List StudentResult → List StudentResult → Prop
  | processComplete (l newResults : List StudentResult)
      (h : ∀ r ∈ newResults, IsGenerated r) : AppStep l (l ++ newResults)
  | approveOne (l : List StudentResult) (resultId : String) :
      AppStep l (handleApproveResult resultId l)
  | approveMany (l : List StudentResult) (resultIds : List String) :
      AppStep l (handleApproveResults resultIds l)
  | deleteMany (l : List StudentResult) (resultIds : List String) :
      AppStep l (handleDeleteResults resultIds l)

/-- Result lists reachable from the initial empty list. -/
def Reachable (l : List StudentResult) : Prop :=
  Relation.ReflTransGen AppStep [] l

/-- Invariant linking status and confidence: every row needing review
has confidence strictly below 0.9. -/
def StatusConfInvariant (l : List StudentResult) : Prop :=
  ∀ r ∈ l, r.status = .needsReview → r.confidence < 9 / 10

/-! Helper lemmas about the mock generator. -/

/-- Answers of a generated result, flattened: entry q is the answer of
0-based question q. -/
theorem allAnswers_eq (draws : Nat → Bool) :
    allAnswers draws = (List.range 50).map (fun q => mkAnswer (draws q) q) := by
  have h50 : (List.range 5).flatMap (fun s => (List.range 10).map (fun i => s * 10 + i)) =
      List.range 50 := by decide
  calc allAnswers draws
      = (List.range 5).flatMap
          (fun s => ((List.range 10).map (fun i => s * 10 + i)).map
            (fun q => mkAnswer (draws q) q)) := by
        rw [allAnswers]
        refine List.flatMap_congr ?_
        intro s _
        simp [sectionAnswers, List.map_map, Function.comp_def]
    _ = ((List.range 5).flatMap (fun s => (List.range 10).map (fun i => s * 10 + i))).map
          (fun q => mkAnswer (draws q) q) := by
        rw [List.map_flatMap]
    _ = (List.range 50).map (fun q => mkAnswer (draws q) q) := by rw [h50]

/-- Incorrect mock answers really differ from the answer key: the
wrong-answer letter of each of the fifty questions is not the correct
letter. -/
theorem wrongAnswer_ne : ∀ q, q < 50 →
    (String.mk [Char.ofNat (65 + (q + 1) % 4)] == CORRECT_ANSWERS.getD q "") = false := by
  decide

/-- Correct answers among the ten questions of section sIdx, read off
the flattened answers list, count exactly the correct draws of that
section. -/
theorem countCorrect_section (draws : Nat → Bool) (s : Nat) (hs : s < 5) :
    (((allAnswers draws).drop (s * 10)).take 10).countP (fun a => a.isCorrect) =
      (List.range 10).countP (fun i => draws (s * 10 + i)) := by
  rw [allAnswers_eq, ← List.map_drop, ← List.map_take]
  have hseg : ((List.range 50).drop (s * 10)).take 10 =
      (List.range 10).map (fun i => s * 10 + i) := by
    interval_cases s <;> decide
  rw [hseg, List.map_map, List.countP_map]
  simp [Function.comp_def, mkAnswer]

/-- Field of the accumulated section-score record at index s. -/
theorem sectionScoreAt_mock (draws : Nat → Bool) (s : Nat) (hs : s < 5) :
    sectionScoreAt (mockSectionScores draws) s = sectionScoreOf draws s := by
  interval_cases s <;> rfl

/-- Each section score is at most 20. -/
theorem sectionScoreOf_le (draws : Nat → Bool) (s : Nat) :
    sectionScoreOf draws s ≤ 20 := by
  have h := List.countP_le_length (fun i => draws (s * 10 + i)) (l := List.range 10)
  simp only [List.length_range] at h
  unfold sectionScoreOf
  omega

/-- Status of a generated result is Needs Review exactly when its
confidence is below 0.9. -/
theorem generateMockResult_status_iff (f : String) (idx : Nat) (d : Nat → Bool)
    (sd : Nat) (c : Rat) (da : Nat) (now : Int) :
    (generateMockResult f idx d sd c da now).status = Status.needsReview ↔
      (generateMockResult f idx d sd c da now).confidence < 9 / 10 := by
  by_cases h : c * (2 / 10) + 8 / 10 < (9 : Rat) / 10 <;>
    simp [generateMockResult, h]

/-- C3: every synthetically generated result is plausible. Its answers
list has exactly 50 entries, entry i carrying question number i + 1 and
isCorrect exactly when the student answer equals the correct answer;
each of the five section scores is twice the number of correct answers
among the 10 questions of that section, hence at most 20; and the total
score is the sum of the five section scores, hence at most 100. -/
theorem generateMockResult_wellFormed (f : String) (idx : Nat) (d : Nat → Bool)
    (sd : Nat) (c : Rat) (da : Nat) (now : Int) :
    (generateMockResult f idx d sd c da now).answers.length = 50 ∧
    (∀ i, i < 50 →
      ((generateMockResult f idx d sd c da now).answers.getD i dummyAnswer).question = i + 1 ∧
      ((generateMockResult f idx d sd c da now).answers.getD i dummyAnswer).isCorrect =
        (((generateMockResult f idx d sd c da now).answers.getD i dummyAnswer).studentAnswer ==
          ((generateMockResult f idx d sd c da now).answers.getD i dummyAnswer).correctAnswer)) ∧
    (∀ s, s < 5 →
      sectionScoreAt (generateMockResult f idx d sd c da now).sectionScores s =
        2 * ((((generateMockResult f idx d sd c da now).answers.drop (s * 10)).take 10).countP
          (fun a => a.isCorrect)) ∧
      sectionScoreAt (generateMockResult f idx d sd c da now).sectionScores s ≤ 20) ∧
    (generateMockResult f idx d sd c da now).totalScore =
      sectionScoreAt (generateMockResult f idx d sd c da now).sectionScores 0 +
        sectionScoreAt (generateMockResult f idx d sd c da now).sectionScores 1 +
        sectionScoreAt (generateMockResult f idx d sd c da now).sectionScores 2 +
        sectionScoreAt (generateMockResult f idx d sd c da now).sectionScores 3 +
        sectionScoreAt (generateMockResult f idx d sd c da now).sectionScores 4 ∧
    (generateMockResult f idx d sd c da now).totalScore ≤ 100 := by
  have hans : (generateMockResult f idx d sd c da now).answers = allAnswers d := rfl
  have hsec : (generateMockResult f idx d sd c da now).sectionScores = mockSectionScores d := rfl
  have htot : (generateMockResult f idx d sd c da now).totalScore = mockTotalScore d := rfl
  refine ⟨?_, ?_, ?_, ?_, ?_⟩
  · rw [hans, allAnswers_eq]
    simp
  · intro i hi
    have hget : (allAnswers d).getD i dummyAnswer = mkAnswer (d i) i := by
      rw [allAnswers_eq, List.getD_eq_getElem _ _ (by simpa using hi),
        List.getElem_map, List.getElem_range]
    rw [hans, hget]
    constructor
    · rfl
    · cases hd : d i with
      | true => simp [mkAnswer]
      | false =>
        simp only [mkAnswer, if_neg (by simp [hd] : ¬ d i = true), hd]
        exact (wrongAnswer_ne i hi).symm
  · intro s hs
    rw [hans, hsec, countCorrect_section d s hs, sectionScoreAt_mock d s hs]
    exact ⟨rfl, sectionScoreOf_le d s⟩
  · rw [htot, hsec]
    rw [sectionScoreAt_mock d 0 (by omega), sectionScoreAt_mock d 1 (by omega),
      sectionScoreAt_mock d 2 (by omega), sectionScoreAt_mock d 3 (by omega),
      sectionScoreAt_mock d 4 (by omega)]
    rfl
  · rw [htot]
    have h0 := sectionScoreOf_le d 0
    have h1 := sectionScoreOf_le d 1
    have h2 := sectionScoreOf_le d 2
    have h3 := sectionScoreOf_le d 3
    have h4 := sectionScoreOf_le d 4
    unfold mockTotalScore
    omega

/-- Witness for C3 at a concrete generated result. -/
theorem generateMockResult_wellFormed_witness :
    (generateMockResult "file-1" 0 (fun _ => true) 0 (1 / 2) 0 0).answers.length = 50 :=
  (generateMockResult_wellFormed "file-1" 0 (fun _ => true) 0 (1 / 2) 0 0).1

/-- Every App transition preserves the status-confidence invariant. -/
theorem appStep_preserves_invariant {l l' : List StudentResult} (h : AppStep l l')
    (hInv : StatusConfInvariant l) : StatusConfInvariant l' := by
  cases h with
  | processComplete newResults hgen =>
    intro r hr hst
    rcases List.mem_append.mp hr with h1 | h2
    · exact hInv r h1 hst
    · obtain ⟨f, idx, d, sd, c, da, now, -, -, rfl⟩ := hgen r h2
      exact (generateMockResult_status_iff f idx d sd c da now).mp hst
  | approveOne resultId =>
    intro r hr hst
    rcases List.mem_map.mp hr with ⟨r0, hr0, rfl⟩
    by_cases hc : (r0.id == resultId) = true
    · simp [hc] at hst
    · simp only [hc, Bool.false_eq_true, if_false] at hst ⊢
      exact hInv r0 hr0 hst
  | approveMany resultIds =>
    intro r hr hst
    rcases List.mem_map.mp hr with ⟨r0, hr0, rfl⟩
    by_cases hc : resultIds.contains r0.id = true
    · rw [if_pos hc] at hst
      simp at hst
    · simp only [hc, Bool.false_eq_true, if_false] at hst ⊢
      exact hInv r0 hr0 hst
  | deleteMany resultIds =>
    intro r hr hst
    exact hInv r (List.mem_filter.mp hr).1 hst

/-- C9: invariant linking status and confidence. Generation makes the
status Needs Review exactly when the drawn confidence lies below 0.9,
and in every reachable state of the application every result whose
status is Needs Review has confidence strictly less than 0.9, since
both approve operations set status Complete and confidence 1.0
together and deletion only removes rows. -/
theorem needsReview_confidence_invariant :
    (∀ f idx d sd c da now,
      ((generateMockResult f idx d sd c da now).status = Status.needsReview ↔
        (generateMockResult f idx d sd c da now).confidence < 9 / 10)) ∧
    (∀ l, Reachable l → StatusConfInvariant l) := by
  constructor
  · intro f idx d sd c da now
    exact generateMockResult_status_iff f idx d sd c da now
  · intro l h
    induction h with
    | refl => intro r hr _; simp at hr
    | tail _ hstep ih => exact appStep_preserves_invariant hstep ih

/-- Witness for C9 on a concrete reachable one-element state. -/
theorem needsReview_confidence_invariant_witness :
    StatusConfInvariant [generateMockResult "file-1" 0 (fun _ => true) 0 (1 / 2) 0 0] :=
  needsReview_confidence_invariant.2 _
    (Relation.ReflTransGen.single
      (AppStep.processComplete [] [generateMockResult "file-1" 0 (fun _ => true) 0 (1 / 2) 0 0]
        (by
          intro r hr
          rw [List.mem_singleton] at hr
          exact ⟨"file-1", 0, fun _ => true, 0, 1 / 2, 0, 0, by norm_num, by norm_num, hr⟩)))

/-! Helper lemmas about the sort comparator. -/

/-- Strict column comparison is asymmetric. -/
theorem keyLtB_asymm {k : SortKey} {a b : StudentResult} (h : keyLtB k a b = true) :
    keyLtB k b a = false := by
  cases k <;>
    simp only [keyLtB, decide_eq_true_eq, decide_eq_false_iff_not] at h ⊢ <;>
    exact lt_asymm h

/-- Negated strict column comparison is transitive. -/
theorem keyLtB_false_trans {k : SortKey} {a b c : StudentResult}
    (h1 : keyLtB k b a = false) (h2 : keyLtB k c b = false) : keyLtB k c a = false := by
  cases k <;>
    simp only [keyLtB, decide_eq_false_iff_not, not_lt] at h1 h2 ⊢ <;>
    exact le_trans h1 h2

/-- Ascending comparator order: a precedes b when b is not strictly
below a on the sort column. -/
theorem jsLe_asc (k : SortKey) (a b : StudentResult) :
    jsLe ⟨k, SortDir.asc⟩ a b = !(keyLtB k b a) := by
  unfold jsLe jsCompare
  cases hab : keyLtB k a b with
  | true => simp [hab, keyLtB_asymm hab]
  | false =>
    cases hba : keyLtB k b a with
    | true => simp [hab, hba]
    | false => simp [hab, hba]

/-- Descending comparator order: a precedes b when a is not strictly
below b on the sort column. -/
theorem jsLe_desc (k : SortKey) (a b : StudentResult) :
    jsLe ⟨k, SortDir.desc⟩ a b = !(keyLtB k a b) := by
  unfold jsLe jsCompare
  cases hab : keyLtB k a b with
  | true => simp [hab]
  | false =>
    cases hba : keyLtB k b a with
    | true => simp [hab, hba]
    | false => simp [hab, hba]

/-- Comparator order is transitive. -/
theorem jsLe_trans (cfg : SortConfig) (a b c : StudentResult)
    (h1 : jsLe cfg a b = true) (h2 : jsLe cfg b c = true) : jsLe cfg a c = true := by
  obtain ⟨k, dir⟩ := cfg
  cases dir with
  | asc =>
    rw [jsLe_asc] at h1 h2 ⊢
    rw [Bool.not_eq_true'] at h1 h2 ⊢
    exact keyLtB_false_trans h1 h2
  | desc =>
    rw [jsLe_desc] at h1 h2 ⊢
    rw [Bool.not_eq_true'] at h1 h2 ⊢
    exact keyLtB_false_trans h2 h1

/-- Comparator order is total. -/
theorem jsLe_total (cfg : SortConfig) (a b : StudentResult) :
    (jsLe cfg a b || jsLe cfg b a) = true := by
  obtain ⟨k, dir⟩ := cfg
  cases dir with
  | asc =>
    rw [jsLe_asc, jsLe_asc]
    cases hba : keyLtB k b a with
    | true => simp [keyLtB_asymm hba]
    | false => simp [hba]
  | desc =>
    rw [jsLe_desc, jsLe_desc]
    cases hab : keyLtB k a b with
    | true => simp [keyLtB_asymm hab]
    | false => simp [hab]

/-- C5: multi-column sort. Requesting a sort on any of the six columns
keeps that column as the key; the direction is descending exactly when
that same column was already sorted ascending, and ascending in every
other case. The resulting order is determined by the configured key
and direction alone: the sorted list is a permutation of its input
that is pairwise ordered by the JS comparator of that key and
direction. -/
theorem requestSort_order_spec :
    (∀ (sortConfig : Option SortConfig) (key : SortKey),
      (requestSort sortConfig key).key = key ∧
      ((requestSort sortConfig key).direction = SortDir.desc ↔
        sortConfig = some ⟨key, SortDir.asc⟩)) ∧
    (∀ (cfg : SortConfig) (l : List StudentResult),
      (sortedResults l (some cfg)).Perm l ∧
      List.Pairwise (fun a b => jsLe cfg a b = true) (sortedResults l (some cfg))) := by
  constructor
  · intro sortConfig key
    refine ⟨rfl, ?_⟩
    cases sortConfig with
    | none => simp [requestSort]
    | some cfg =>
      obtain ⟨k, dir⟩ := cfg
      cases dir <;> by_cases hk : k = key <;> simp [requestSort, hk]
  · intro cfg l
    constructor
    · exact List.mergeSort_perm l (jsLe cfg)
    · exact List.sorted_mergeSort (fun a b c => jsLe_trans cfg a b c)
        (fun a b => jsLe_total cfg a b) l

/-- Witness for C5 at a concrete sort request. -/
theorem requestSort_order_spec_witness :
    (requestSort (some ⟨SortKey.totalScore, SortDir.desc⟩) SortKey.studentId).key =
      SortKey.studentId :=
  (requestSort_order_spec.1 (some ⟨SortKey.totalScore, SortDir.desc⟩) SortKey.studentId).1

/-- C1: the rows displayed by the results view are exactly the slice
[(p-1)*10, p*10) of the list obtained by keeping the results whose
studentId contains the search term case-insensitively and whose status
equals the status filter (all statuses when the filter is All),
ordered by the configured sort key and direction; the reported total
page count is the ceiling of n / 10 where n is the number of filtered
results. -/
theorem displayedRows_paging_spec (results : List StudentResult) (searchTerm : String)
    (statusFilter : StatusFilter) (cfg : SortConfig) (p : Nat) (_hp : 1 ≤ p) :
    displayedRows results searchTerm statusFilter (some cfg) p =
      (((results.filter (fun r =>
          strIncludes (lowerStr r.studentId) (lowerStr searchTerm) &&
            (statusFilter == StatusFilter.all ||
              StatusFilter.ofStatus r.status == statusFilter))).mergeSort
        (jsLe cfg)).drop ((p - 1) * 10)).take 10 ∧
    totalPages (sortedResults (filteredResults results searchTerm statusFilter) (some cfg)) =
      ((results.filter (fun r =>
          strIncludes (lowerStr r.studentId) (lowerStr searchTerm) &&
            (statusFilter == StatusFilter.all ||
              StatusFilter.ofStatus r.status == statusFilter))).length + 9) / 10 := by
  have hfilter : filteredResults results searchTerm statusFilter =
      results.filter (fun r =>
        strIncludes (lowerStr r.studentId) (lowerStr searchTerm) &&
          (statusFilter == StatusFilter.all ||
            StatusFilter.ofStatus r.status == statusFilter)) := by
    rw [filteredResults, List.filter_filter]
    refine List.filter_congr ?_
    intro r _
    rw [Bool.and_comm]
    rfl
  constructor
  · rw [displayedRows, paginatedResults, hfilter]
    rfl
  · rw [totalPages]
    have hlen : (sortedResults (filteredResults results searchTerm statusFilter)
        (some cfg)).length = (filteredResults results searchTerm statusFilter).length := by
      exact (List.mergeSort_perm _ _).length_eq
    rw [hlen, hfilter]
    rw [RESULTS_PER_PAGE]
    congr 1

/-- Witness for C1 at a concrete table state on page 1. -/
theorem displayedRows_paging_spec_witness :
    1 ≤ 1 ∧
      displayedRows [] "" StatusFilter.all (some ⟨SortKey.totalScore, SortDir.desc⟩) 1 = [] := by
  refine ⟨le_refl 1, ?_⟩
  rw [(displayedRows_paging_spec [] "" StatusFilter.all ⟨SortKey.totalScore, SortDir.desc⟩ 1
    (le_refl 1)).1]
  simp

/-- C6: batch approve modifies only the targeted rows and only the
targeted fields. The length is unchanged, and at every index the row
of the new list is the old row with status Complete and confidence 1.0
when the old id is in the set, and the old row itself otherwise; the
record-update form shows every other field of the approved rows
untouched, and indices show the relative order untouched. -/
theorem handleApproveResults_frame (resultIds : List String) (l : List StudentResult) :
    (handleApproveResults resultIds l).length = l.length ∧
    (∀ i, i < l.length →
      (resultIds.contains (l.getD i dummyResult).id = true →
        (handleApproveResults resultIds l).getD i dummyResult =
          { l.getD i dummyResult with status := Status.complete, confidence := 1 }) ∧
      (resultIds.contains (l.getD i dummyResult).id = false →
        (handleApproveResults resultIds l).getD i dummyResult = l.getD i dummyResult)) := by
  constructor
  · simp [handleApproveResults]
  · intro i hi
    have hmap : (handleApproveResults resultIds l).getD i dummyResult =
        (if resultIds.contains (l.getD i dummyResult).id then
          { l.getD i dummyResult with status := Status.complete, confidence := 1 }
        else l.getD i dummyResult) := by
      rw [handleApproveResults,
        List.getD_eq_getElem _ _ (by simpa using hi), List.getElem_map,
        ← List.getD_eq_getElem _ dummyResult hi]
    constructor
    · intro hc
      rw [hmap, if_pos hc]
    · intro hc
      rw [hmap, if_neg (by rw [hc]; simp)]

/-- Witness for C6 at a concrete list and id set. -/
theorem handleApproveResults_frame_witness :
    (handleApproveResults [""] [dummyResult]).length = [dummyResult].length :=
  (handleApproveResults_frame [""] [dummyResult]).1

/-- C7: batch delete removes exactly the selected results. The result
is a sublist of the input (so the surviving rows keep their relative
order and are unmodified), and a result is in the output exactly when
it is in the input and its id is not in the deleted set. -/
theorem handleDeleteResults_spec (resultIds : List String) (l : List StudentResult) :
    (handleDeleteResults resultIds l).Sublist l ∧
    (∀ r : StudentResult, r ∈ handleDeleteResults resultIds l ↔
      r ∈ l ∧ resultIds.contains r.id = false) := by
  constructor
  · exact List.filter_sublist l
  · intro r
    rw [handleDeleteResults, List.mem_filter]
    simp only [Bool.not_eq_true']

/-- Witness for C7 at a concrete list and id set. -/
theorem handleDeleteResults_spec_witness :
    (handleDeleteResults ["x"] [dummyResult]).Sublist [dummyResult] :=
  (handleDeleteResults_spec ["x"] [dummyResult]).1

/-- Row predicate of the CSV export, in the words of the claim. -/
theorem exportRowKept_iff (f : StatusFilter) (st en : Option Int) (r : StudentResult) :
    exportRowKept f st en r = true ↔
      (f = StatusFilter.all ∨ StatusFilter.ofStatus r.status = f) ∧
      (∀ s, st = some s → s ≤ normalizeToMidnight r.processingDate) ∧
      (∀ e, en = some e → normalizeToMidnight r.processingDate ≤ e) := by
  rcases st with _ | s <;> rcases en with _ | e <;>
    simp only [exportRowKept] <;>
    split_ifs <;>
    simp_all [bne_iff_ne, not_lt, decide_eq_true_eq] <;>
    tauto

/-- C2: CSV export uses its own date and status filters, independent
of the table search and status filters (the export reads the full
results list and only the three export-filter states, which are the
only arguments here). A result is exported exactly when its status
matches the export status filter (or that filter is All), and its
processing date normalized to midnight is not before the start date
when one is set and not after the end date when one is set. -/
theorem dataToExport_spec (results : List StudentResult) (exportStatusFilter : StatusFilter)
    (exportStartDate exportEndDate : Option Int) :
    ∀ r : StudentResult,
      r ∈ dataToExport results exportStatusFilter exportStartDate exportEndDate ↔
        r ∈ results ∧
          ((exportStatusFilter = StatusFilter.all ∨
              StatusFilter.ofStatus r.status = exportStatusFilter) ∧
            (∀ s, exportStartDate = some s → s ≤ normalizeToMidnight r.processingDate) ∧
            (∀ e, exportEndDate = some e → normalizeToMidnight r.processingDate ≤ e)) := by
  intro r
  rw [dataToExport, List.mem_filter, exportRowKept_iff]

/-- Witness for C2 at a concrete result and export filters. -/
theorem dataToExport_spec_witness :
    dummyResult ∈ dataToExport [dummyResult] StatusFilter.all none none :=
  (dataToExport_spec [dummyResult] StatusFilter.all none none dummyResult).mpr
    ⟨by simp, Or.inl rfl, fun s h => Option.noConfusion h, fun e h => Option.noConfusion h⟩

/-- C8: the AI-insights operation never propagates failure. It is a
total function into strings: when the API key is not configured it
returns the fixed not-configured message without calling the external
API (the boolean component records whether the call happened), when
the key is configured and the single external call fails it returns
the fixed error-notice string, and when the call succeeds it returns
the response text. -/
theorem generateAnalyticsInsights_spec (apiKey : Option String)
    (call : Except String String) :
    (apiKeyConfigured apiKey = false →
      generateAnalyticsInsights apiKey call =
        ("API Key not configured. Please set the API_KEY environment variable.", false)) ∧
    (∀ e, apiKeyConfigured apiKey = true → call = Except.error e →
      generateAnalyticsInsights apiKey call =
        ("An error occurred while generating AI insights. Please check the console for details.",
          true)) ∧
    (∀ t, apiKeyConfigured apiKey = true → call = Except.ok t →
      generateAnalyticsInsights apiKey call = (t, true)) := by
  refine ⟨?_, ?_, ?_⟩
  · intro h
    simp [generateAnalyticsInsights, h]
  · intro e h hc
    subst hc
    simp [generateAnalyticsInsights, h]
  · intro t h hc
    subst hc
    simp [generateAnalyticsInsights, h]

/-- Witness for C8 with the key missing. -/
theorem generateAnalyticsInsights_spec_witness :
    apiKeyConfigured none = false ∧
      generateAnalyticsInsights none (Except.ok "analysis") =
        ("API Key not configured. Please set the API_KEY environment variable.", false) :=
  ⟨rfl, (generateAnalyticsInsights_spec none (Except.ok "analysis")).1 rfl⟩

/-- Closed form of the processFile recursion from any start index. -/
theorem processFile_eq_aux (n : Nat) (isErr : Nat → Bool) (gen : Nat → StudentResult) :
    ∀ k j, n - j = k →
      processFile n isErr gen j =
        ((List.range' j (n - j)).filter (fun i => !(isErr i))).map gen := by
  intro k
  induction k with
  | zero =>
    intro j hk
    rw [processFile]
    have hnj : n ≤ j := by omega
    rw [dif_pos hnj, hk]
    rfl
  | succ k ih =>
    intro j hk
    rw [processFile]
    have hnj : ¬ n ≤ j := by omega
    rw [dif_neg hnj, hk, List.range'_succ]
    have hk2 : n - (j + 1) = k := by omega
    rw [ih (j + 1) hk2, hk2]
    cases he : isErr j <;> simp [he]

/-- C10: a file whose simulated pipeline ends in the error stage
produces no graded result. The pipeline yields exactly one generated
result per non-errored file, in file order; the completion handler
appends exactly those results to the existing list; and the
total-processed counter increases by the number of completed (not
errored) files. -/
theorem pipeline_spec (totalFiles : Nat) (isErr : Nat → Bool)
    (gen : Nat → StudentResult) (st : AppState) :
    pipelineResults totalFiles isErr gen =
      ((List.range totalFiles).filter (fun i => !(isErr i))).map gen ∧
    (handleProcessingComplete st (pipelineResults totalFiles isErr gen)).studentResults =
      st.studentResults ++ ((List.range totalFiles).filter (fun i => !(isErr i))).map gen ∧
    (handleProcessingComplete st (pipelineResults totalFiles isErr gen)).totalProcessed =
      st.totalProcessed + ((List.range totalFiles).filter (fun i => !(isErr i))).length := by
  have h : pipelineResults totalFiles isErr gen =
      ((List.range totalFiles).filter (fun i => !(isErr i))).map gen := by
    rw [pipelineResults, processFile_eq_aux totalFiles isErr gen (totalFiles - 0) 0 rfl,
      Nat.sub_zero, ← List.range_eq_range']
  refine ⟨h, ?_, ?_⟩
  · rw [handleProcessingComplete, h]
  · rw [handleProcessingComplete, h]
    simp

/-- C4 counterexample: the save and load effects do not reproduce the
saved list field for field. A list holding one result whose
processingDate is a Date object comes back with that field turned into
the serialized string, so the loaded list differs from the saved
one. -/
theorem saveLoadRoundTrip_not_identity :
    saveLoadRoundTrip [sampleDateObjResult] ≠ [sampleDateObjResult] := by
  intro h
  have h2 := congrArg (fun l => (l.getD 0 sampleDateObjResult).processingDate) h
  simp [saveLoadRoundTrip, stringifyParseResult, sampleDateObjResult] at h2

/-- C4 amended: persistence is a blob save and load of the entire
result list, and the round trip preserves every result field for field
except processingDate, which comes back as the JSON string form of the
stored date; in particular the round trip is the identity exactly on
lists whose processingDate fields are already strings. -/
theorem saveLoadRoundTrip_spec (l : List (StudentResultG DateValue)) :
    (saveLoadRoundTrip l).length = l.length ∧
    (∀ i, i < l.length →
      (saveLoadRoundTrip l).getD i sampleDateObjResult =
        { l.getD i sampleDateObjResult with
            processingDate :=
              DateValue.dateStr (jsonOfDate (l.getD i sampleDateObjResult).processingDate) }) ∧
    ((∀ r ∈ l, ∃ s, r.processingDate = DateValue.dateStr s) → saveLoadRoundTrip l = l) := by
  refine ⟨by simp [saveLoadRoundTrip], ?_, ?_⟩
  · intro i hi
    rw [saveLoadRoundTrip, List.getD_eq_getElem _ _ (by simpa using hi), List.getElem_map,
      ← List.getD_eq_getElem _ sampleDateObjResult hi]
    rfl
  · intro hstr
    rw [saveLoadRoundTrip]
    induction l with
    | nil => rfl
    | cons a t ih =>
      rw [List.map_cons]
      obtain ⟨s, hs⟩ := hstr a (List.mem_cons_self a t)
      have ha : stringifyParseResult a = a := by
        rw [stringifyParseResult, hs]
        show { a with processingDate := DateValue.dateStr s } = a
        rw [← hs]
      rw [ha, ih (fun r hr => hstr r (List.mem_cons_of_mem a hr))]

/-- Witness for C4 on a concrete already-stringified list. -/
theorem saveLoadRoundTrip_spec_witness :
    saveLoadRoundTrip [sampleDateStrResult] = [sampleDateStrResult] :=
  (saveLoadRoundTrip_spec [sampleDateStrResult]).2.2 (by
    intro r hr
    rw [List.mem_singleton] at hr
    exact ⟨"1970-01-01T00:00:00.000Z", by rw [hr]; rfl⟩)

end AutoOMR
